import Mathlib

/-!
Verification of the DebugUtils value formatter and call-site printers
(`DebugUtils.hpp`), as a shallow embedding: every function below mirrors one
overload, template branch or loop of the header; text written to `std::cerr`
is modelled as the `String` a call emits, and the `cerr` redirection state of
the scoped log-file guard is modelled explicitly as a record.
-/

/-- Models std::filesystem::path(f).filename().string(): the path component
after the last slash (the whole string when there is no slash). -/
def basename (s : String) : String :=
  String.mk (((s.toList).reverse.takeWhile (fun c => c ≠ '/')).reverse)

/-- joinSep sep [a,b,c] = a ++ sep ++ b ++ sep ++ c; joinSep sep [] = "". -/
def joinSep (sep : String) : List String → String
  | [] => ""
  | [x] => x
  | x :: y :: xs => x ++ sep ++ joinSep sep (y :: xs)

/-- Concatenation of a list of strings. -/
def strConcat : List String → String
  | [] => ""
  | x :: xs => x ++ strConcat xs

/-- Models `std::cerr << std::setw(w) << std::left << s`: s padded on the
right with spaces up to field width w (never truncated). -/
def padField (w : Nat) (s : String) : String :=
  s ++ String.mk (List.replicate (w - s.length) ' ')

/-- A value reaching `DebugUtils::print`, one constructor per overload /
`if constexpr` branch of the header:
* `cstr`    — `const char*` (printed raw);
* `ch`      — `char`;
* `bool`    — `bool`;
* `str`     — `std::string`;
* `boolVec` — `std::vector<bool>` (the dedicated overload);
* `iter`    — any other type satisfying the `is_iterable` concept
              (`begin(x)` exists, not `std::string`);
* `stck`    — `top()/pop()` drainables (std::stack, std::priority_queue),
              listed top first;
* `queue`   — `front()/pop()` drainables (std::queue), listed front first;
* `pair`    — `.first/.second`;
* `tup`     — `get<0>` tuples;
* `other`   — anything else, carrying the text its `operator<<` produces. -/
inductive Val where
  | cstr (s : String)
  | ch (c : Char)
  | bool (b : Bool)
  | str (s : String)
  | boolVec (bs : List Bool)
  | iter (xs : List Val)
  | stck (xs : List Val)
  | queue (xs : List Val)
  | pair (a b : Val)
  | tup (xs : List Val)
  | other (s : String)
deriving Repr

/-- The `is_iterable` concept of the header: `begin(x)` well-formed and the
type is not `std::string`.  `std::vector<bool>` satisfies it; stacks,
queues, pairs, tuples, `char`, `bool`, strings and scalars do not. -/
def Val.isIterable : Val → Bool
  | .boolVec _ => true
  | .iter _ => true
  | _ => false

/-- The compile-time test `is_iterable<decltype(*(begin(x)))>`: whether the
element type of a (homogeneous) container is itself iterable; decided by the
first element. -/
def elemsIterable : List Val → Bool
  | [] => false
  | y :: _ => y.isIterable

/-- The loop of the `std::vector<bool>` overload:
`cerr << (f++ ? "," : "") << (i ? "T" : "F")` over the elements. -/
def boolVecLoop (f : Nat) : List Bool → String
  | [] => ""
  | b :: bs => (if f != 0 then "," else "") ++ (if b then "T" else "F") ++ boolVecLoop (f + 1) bs

mutual

/-- `DebugUtils::print`, one equation per overload / `if constexpr` branch
(dispatch is by static type, so the constructors of `Val` select exactly the
branch C++ overload resolution selects). -/
def print (v : Val) : String :=
  match v with
  | .cstr s => s
  | .ch c => "\x27" ++ String.mk [c] ++ "\x27"
  | .bool b => if b then "T" else "F"
  | .str s => "\x22" ++ s ++ "\x22"
  | .boolVec bs => "\x7b" ++ boolVecLoop 0 bs ++ "\x7d"
  | .iter xs =>
      if xs.length != 0 && elemsIterable xs then
        "\n~~~~~\n" ++ printBlock (Nat.log 10 (xs.length - 1) + 2) 0 xs ++ "~~~~~\n"
      else
        "\x7b" ++ printListF 0 xs ++ "\x7d"
  | .stck xs => "\x7b" ++ printListF 0 xs ++ "\x7d"
  | .queue xs => "\x7b" ++ printListF 0 xs ++ "\x7d"
  | .pair a b => "(" ++ print a ++ "," ++ print b ++ ")"
  | .tup xs => "(" ++ printListF 0 xs ++ ")"
  | .other s => s
termination_by sizeOf v

/-- The element loop `cerr << (f++ ? "," : ""), print(i)` shared by the flat
iterable branch, the drain branches and the tuple fold. -/
def printListF (f : Nat) (l : List Val) : String :=
  match l with
  | [] => ""
  | x :: xs => (if f != 0 then "," else "") ++ print x ++ printListF (f + 1) xs
termination_by sizeOf l

/-- The nested-iterable loop:
`cerr << setw(w) << left << f++, print(i), cerr << "\n"` over the elements. -/
def printBlock (w : Nat) (f : Nat) (l : List Val) : String :=
  match l with
  | [] => ""
  | x :: xs => padField w (toString f) ++ print x ++ "\n" ++ printBlock w (f + 1) xs
termination_by sizeOf l

end

/-- The body of the `requires { x.pop(); }` branch, kept operational: the
branch copies x (`auto temp{ x }`), drains and prints the copy, and x itself
is never written; the pair returned is (text emitted, the object x is left
as).  For `stck` the head is the top (`temp.top()`), for `queue` the head is
the front (`temp.front()`); either way extraction order is head first. -/
def popBranch (x : List Val) : String × List Val :=
  ("\x7b" ++ printListF 0 x ++ "\x7d", x)

/-- `std::stack::push`: the new element becomes the top (our head). -/
def stackPush (s : List Val) (v : Val) : List Val := v :: s

/-- Depth step of the splitting loop in `printer`: `'('`, `'<'`, `'{'`
increment `bracket`, `')'`, `'>'`, `'}'` decrement it; every other
character (including `'['` and `']'`) leaves it unchanged. -/
def delta (c : Char) : Int :=
  if c = '(' || c = '<' || c = '\x7b' then 1
  else if c = ')' || c = '>' || c = '\x7d' then -1
  else 0

/-- Net depth contribution of a character list. -/
def depthSum : List Char → Int
  | [] => 0
  | c :: cs => delta c + depthSum cs

/-- The scanning loop of `printer`:
`for (int bracket = 0; names[i] != 0 and (names[i] != ',' or bracket > 0); i++)`
— the index of the first comma seen at non-positive depth (or the length of
the string), starting from accumulated depth b. -/
def splitIdx : List Char → Int → Nat
  | [], _ => 0
  | c :: cs, b =>
      if c = ',' ∧ b ≤ 0 then 0
      else 1 + splitIdx cs (b + delta c)

/-- The successive name segments `printer` carves out of `names` for k
values: each step takes `splitIdx` characters and resumes one past the
stopping comma, exactly as `printer(names + i + 1, tail...)` does. -/
def labels (names : List Char) (k : Nat) : List String :=
  match k with
  | 0 => []
  | k + 1 =>
      let i := splitIdx names 0
      String.mk (List.take i names) :: labels (List.drop (i + 1) names) k

/-- `DebugUtils::printer`: writes the first name segment, `" = "`, the
formatted head, then either `" ]\n"` (last value) or `" ||"` followed by the
recursive call on the rest of the names and values.  (C++ requires at least
one value; the `[]` equation is vacuous.) -/
def printer (names : List Char) (vals : List Val) : String :=
  match vals with
  | [] => ""
  | v :: tail =>
      let i := splitIdx names 0
      String.mk (List.take i names) ++ " = " ++ print v ++
        (match tail with
         | [] => " ]\n"
         | _ :: _ => " ||" ++ printer (List.drop (i + 1) names) tail)

/-- `DebugUtils::printerArr`: prints the characters of `names` up to the
first comma (no depth tracking at all), then silently skips the second
comma-separated field (the length expression), prints `" = {"`, the
elements comma-separated, `"}"`, and joins further arrays with `" ||"`,
ending with `" ]\n"`. -/
def printerArr (names : List Char) (arrs : List (List Val)) : String :=
  match arrs with
  | [] => ""
  | arr :: tail =>
      let name := List.takeWhile (fun c => c ≠ ',') names
      let skip := List.takeWhile (fun c => c ≠ ',') (List.drop (name.length + 1) names)
      String.mk name ++ " = \x7b" ++ printListF 0 arr ++ "\x7d" ++
        (match tail with
         | [] => " ]\n"
         | _ :: _ =>
             " ||" ++ printerArr (List.drop (name.length + 1 + skip.length + 1) names) tail)

/-- The name segments `printerArr` emits for k arrays: the raw text before
the first comma, consuming two comma-separated fields per array. -/
def arrLabels (names : List Char) (k : Nat) : List String :=
  match k with
  | 0 => []
  | k + 1 =>
      let name := List.takeWhile (fun c => c ≠ ',') names
      let skip := List.takeWhile (fun c => c ≠ ',') (List.drop (name.length + 1) names)
      String.mk name :: arrLabels (List.drop (name.length + 1 + skip.length + 1) names) k

/-- `debugPrinter(std::true_type, ...)`: the `<basename>(<line>) [ ` header
followed by `printer`. -/
def debugPrinterOn (fn : String) (line : Int) (names : List Char) (vals : List Val) : String :=
  basename fn ++ "(" ++ toString line ++ ") [ " ++ printer names vals

/-- `debugPrinter(std::false_type, ...)`: empty body, emits nothing. -/
def debugPrinterOff (_fn : String) (_line : Int) (_names : List Char) (_vals : List Val) : String :=
  ""

/-- `debugPrinterArr(std::true_type, ...)`: the same header followed by
`printerArr`. -/
def debugPrinterArrOn (fn : String) (line : Int) (names : List Char) (arrs : List (List Val)) : String :=
  basename fn ++ "(" ++ toString line ++ ") [ " ++ printerArr names arrs

/-- `debugPrinterArr(std::false_type, ...)`: empty body, emits nothing. -/
def debugPrinterArrOff (_fn : String) (_line : Int) (_names : List Char) (_arrs : List (List Val)) : String :=
  ""

/-- A value handed to `debugMsg`, which streams it with plain `operator<<`
(never through `print`); constructors for the primitive types whose plain
insertion differs from the value formatter. -/
inductive MsgVal where
  | mb (b : Bool)
  | ms (s : String)
  | mc (c : Char)
  | mi (n : Int)
deriving Repr

/-- Default `std::ostream` insertion: booleans as 1/0 (no `boolalpha`),
strings and chars verbatim, integers in decimal. -/
def streamIns : MsgVal → String
  | .mb b => if b then "1" else "0"
  | .ms s => s
  | .mc c => String.mk [c]
  | .mi n => toString n

/-- `debugMsg(std::true_type, ...)`:
`cerr << basename << "(" << lineNbr << "): " << output << endl`. -/
def debugMsgOn (fn : String) (line : Int) (v : MsgVal) : String :=
  basename fn ++ "(" ++ toString line ++ "): " ++ streamIns v ++ "\n"

/-- `debugMsg(std::false_type, ...)`: empty body, emits nothing. -/
def debugMsgOff (_fn : String) (_line : Int) (_v : MsgVal) : String :=
  ""

/-- The observable `std::cerr` state: the text so far on the original sink,
the text so far in the guard's log file, and whether `cerr.rdbuf` currently
points at the log file. -/
structure CerrState where
  origOut : String
  fileOut : String
  redirected : Bool
deriving Repr, DecidableEq

/-- One write to `std::cerr` under the current redirection. -/
def cerrWrite (s : CerrState) (msg : String) : CerrState :=
  if s.redirected then { s with fileOut := s.fileOut ++ msg }
  else { s with origOut := s.origOut ++ msg }

/-- The log file name built by the guard: `fn += '_' + oss.str() + ".log"`
with `oss` holding the `%Y%m%d_%H%M%S` timestamp. -/
def logFileName (filename timestamp : String) : String :=
  filename ++ "_" ++ timestamp ++ ".log"

/-- `DebugFileOnBase<std::true_type>` constructor. `openOk` is whether
`mErrorLogFile.open(fn)` succeeded: on success `cerr.rdbuf` is switched to
the file and the confirmation line goes to the (now redirected) stream; on
failure nothing is redirected and the complaint goes to the current stream. -/
def debugFileOnCtor (openOk : Bool) (filename timestamp : String) (s : CerrState) : CerrState :=
  let fn := logFileName filename timestamp
  if openOk then
    cerrWrite { s with redirected := true }
      ("Error logging redirected to file " ++ fn ++ "\n")
  else
    cerrWrite s ("Unable to open debug logging file " ++ fn ++ "\n")

/-- The generic `DebugFileOnBase<T>` constructor (the switch-off case):
`constexpr DebugFileOnBase(T, const char*) {}` — no effect. -/
def debugFileOffCtor (_filename : String) (s : CerrState) : CerrState := s

/-- The implicit (trivial) destructor of the generic `DebugFileOnBase<T>`:
no effect. -/
def debugFileOffDtor (s : CerrState) : CerrState := s

lemma joinSep_cons_concat (sep a : String) (l : List String) :
    joinSep sep (a :: l) = a ++ strConcat (l.map fun s => sep ++ s) := by
  induction l generalizing a with
  | nil => simp [joinSep, strConcat]
  | cons b l ih => simp [joinSep, strConcat, ih, String.append_assoc]

lemma printListF_shift (xs : List Val) : ∀ f : Nat, f ≠ 0 →
    printListF f xs = strConcat (xs.map fun x => "," ++ print x) := by
  induction xs with
  | nil => intro f _; simp [printListF, strConcat]
  | cons x xs ih =>
      intro f hf
      simp [printListF, strConcat, hf, ih (f + 1) (by omega), String.append_assoc]

lemma printListF_join (xs : List Val) :
    printListF 0 xs = joinSep "," (xs.map print) := by
  cases xs with
  | nil => simp [printListF, joinSep]
  | cons x xs =>
      simp [printListF, printListF_shift xs 1 (by omega), joinSep_cons_concat,
        String.append_assoc, Function.comp_def]

lemma boolVecLoop_shift (bs : List Bool) : ∀ f : Nat, f ≠ 0 →
    boolVecLoop f bs = strConcat (bs.map fun b => "," ++ if b then "T" else "F") := by
  induction bs with
  | nil => intro f _; simp [boolVecLoop, strConcat]
  | cons b bs ih =>
      intro f hf
      simp [boolVecLoop, strConcat, hf, ih (f + 1) (by omega), String.append_assoc]

lemma boolVecLoop_join (bs : List Bool) :
    boolVecLoop 0 bs = joinSep "," (bs.map fun b => if b then "T" else "F") := by
  cases bs with
  | nil => simp [boolVecLoop, joinSep]
  | cons b bs =>
      simp [boolVecLoop, boolVecLoop_shift bs 1 (by omega), joinSep_cons_concat,
        String.append_assoc, Function.comp_def]

lemma printBlock_lines (w : Nat) (xs : List Val) : ∀ f : Nat,
    printBlock w f xs =
      strConcat ((List.enumFrom f xs).map fun p =>
        padField w (toString p.1) ++ print p.2 ++ "\n") := by
  induction xs with
  | nil => intro f; simp [printBlock, strConcat]
  | cons x xs ih =>
      intro f
      simp [printBlock, strConcat, List.enumFrom_cons, ih (f + 1), String.append_assoc]

lemma labels_length (names : List Char) (k : Nat) : (labels names k).length = k := by
  induction k generalizing names with
  | zero => simp [labels]
  | succ k ih => simp [labels, ih]

lemma printer_cons_cons (names : List Char) (v w : Val) (rest : List Val) :
    printer names (v :: w :: rest) =
      String.mk (List.take (splitIdx names 0) names) ++ " = " ++ print v ++
        (" ||" ++ printer (List.drop (splitIdx names 0 + 1) names) (w :: rest)) := rfl

lemma labels_succ (names : List Char) (k : Nat) :
    labels names (k + 1) =
      String.mk (List.take (splitIdx names 0) names) ::
        labels (List.drop (splitIdx names 0 + 1) names) k := rfl

lemma joinSep_cons_cons (sep a b : String) (l : List String) :
    joinSep sep (a :: b :: l) = a ++ sep ++ joinSep sep (b :: l) := rfl

lemma printer_join (vals : List Val) (h : vals ≠ []) : ∀ names : List Char,
    printer names vals =
      joinSep " ||" (List.zipWith (fun n v => n ++ " = " ++ print v)
        (labels names vals.length) vals) ++ " ]\n" := by
  induction vals with
  | nil => exact absurd rfl h
  | cons v tail ih =>
      intro names
      cases tail with
      | nil => simp [printer, labels, joinSep, String.append_assoc]
      | cons w rest =>
          rw [printer_cons_cons, ih (by simp) (List.drop (splitIdx names 0 + 1) names)]
          conv_rhs => rw [List.length_cons, labels_succ]
          cases hl : labels (List.drop (splitIdx names 0 + 1) names) (w :: rest).length with
          | nil => exact absurd (congrArg List.length hl) (by simp [labels_length])
          | cons n ns =>
              simp [joinSep_cons_cons, String.append_assoc]

lemma arrLabels_length (names : List Char) (k : Nat) : (arrLabels names k).length = k := by
  induction k generalizing names with
  | zero => simp [arrLabels]
  | succ k ih => simp [arrLabels, ih]

lemma printerArr_cons_cons (names : List Char) (arr brr : List Val) (rest : List (List Val)) :
    printerArr names (arr :: brr :: rest) =
      String.mk (List.takeWhile (fun c => c ≠ ',') names) ++ " = \x7b" ++ printListF 0 arr ++
        "\x7d" ++
        (" ||" ++
          printerArr
            (List.drop ((List.takeWhile (fun c => c ≠ ',') names).length + 1 +
              (List.takeWhile (fun c => c ≠ ',')
                (List.drop ((List.takeWhile (fun c => c ≠ ',') names).length + 1) names)).length + 1)
              names)
            (brr :: rest)) := rfl

lemma arrLabels_succ (names : List Char) (k : Nat) :
    arrLabels names (k + 1) =
      String.mk (List.takeWhile (fun c => c ≠ ',') names) ::
        arrLabels
          (List.drop ((List.takeWhile (fun c => c ≠ ',') names).length + 1 +
            (List.takeWhile (fun c => c ≠ ',')
              (List.drop ((List.takeWhile (fun c => c ≠ ',') names).length + 1) names)).length + 1)
            names)
          k := rfl

lemma printerArr_join (arrs : List (List Val)) (h : arrs ≠ []) : ∀ names : List Char,
    printerArr names arrs =
      joinSep " ||" (List.zipWith (fun n a => n ++ " = \x7b" ++ joinSep "," (a.map print) ++ "\x7d")
        (arrLabels names arrs.length) arrs) ++ " ]\n" := by
  induction arrs with
  | nil => exact absurd rfl h
  | cons arr tail ih =>
      intro names
      cases tail with
      | nil => simp [printerArr, arrLabels, joinSep, printListF_join, String.append_assoc]
      | cons brr rest =>
          rw [printerArr_cons_cons, ih (by simp)]
          conv_rhs => rw [List.length_cons, arrLabels_succ]
          cases hl : arrLabels
              (List.drop ((List.takeWhile (fun c => c ≠ ',') names).length + 1 +
                (List.takeWhile (fun c => c ≠ ',')
                  (List.drop ((List.takeWhile (fun c => c ≠ ',') names).length + 1) names)).length + 1)
                names)
              (brr :: rest).length with
          | nil => exact absurd (congrArg List.length hl) (by simp [arrLabels_length])
          | cons n ns =>
              simp [joinSep_cons_cons, printListF_join, String.append_assoc]
              rfl

lemma splitIdx_append (s : List Char) : ∀ (t : List Char) (b : Int),
    (∀ i, i < s.length → List.getD s i ' ' = ',' → 0 < b + depthSum (List.take i s)) →
    splitIdx (s ++ t) b = s.length + splitIdx t (b + depthSum s) := by
  induction s with
  | nil =>
      intro t b _
      simp [depthSum]
  | cons c cs ih =>
      intro t b h
      have hc : ¬(c = ',' ∧ b ≤ 0) := by
        rintro ⟨hcc, hb⟩
        have := h 0 (by simp) (by simpa using hcc)
        simp [depthSum] at this
        omega
      have hrest : ∀ i, i < cs.length → List.getD cs i ' ' = ',' →
          0 < (b + delta c) + depthSum (List.take i cs) := by
        intro i hi hci
        have := h (i + 1) (by simpa using Nat.succ_lt_succ hi) (by simpa using hci)
        simp only [List.take_succ_cons, depthSum] at this
        omega
      have key := ih t (b + delta c) hrest
      simp only [List.cons_append, splitIdx, if_neg hc, List.append_eq]
      rw [key]
      simp only [depthSum, List.length_cons, ← Int.add_assoc]
      omega

lemma splitIdx_run (s : List Char) (b : Int)
    (h : ∀ i, i < s.length → List.getD s i ' ' = ',' → 0 < b + depthSum (List.take i s)) :
    splitIdx s b = s.length := by
  have := splitIdx_append s [] b h
  simpa [splitIdx] using this

/-- C1: with the build-time switch off (DEBUGUTILS_ON == 0) every entry
point resolves to the std::false_type overload with an empty body —
debugPrinter, debugPrinterArr and debugMsg emit nothing for any argument
list, and construction and destruction of a DebugFileOn guard (the generic
DebugFileOnBase) leave the cerr state exactly as it was. -/
theorem c1_disabled_noop :
    (∀ fn line names vals, debugPrinterOff fn line names vals = "") ∧
    (∀ fn line names arrs, debugPrinterArrOff fn line names arrs = "") ∧
    (∀ fn line v, debugMsgOff fn line v = "") ∧
    (∀ fn s, debugFileOffCtor fn s = s) ∧
    (∀ s, debugFileOffDtor s = s) :=
  ⟨fun _ _ _ _ => rfl, fun _ _ _ _ => rfl, fun _ _ _ => rfl, fun _ _ => rfl, fun _ => rfl⟩

/-- C3: the pop-capable branch of print drains a copy: it renders the
elements in extraction order (top first for stacks / priority queues, front
first for queues; the head of the model list) as a comma-separated list in
braces, and the original object is returned unchanged — same contents, so
in particular the same number of elements.  Pushing 1, 2, 3 onto an empty
stack and printing it yields "{3,2,1}". -/
theorem c3_drain_frame (s q : List Val) :
    (popBranch s).1 = "\x7b" ++ joinSep "," (s.map print) ++ "\x7d" ∧
    (popBranch s).2 = s ∧
    print (Val.stck s) = (popBranch s).1 ∧
    print (Val.queue q) = "\x7b" ++ joinSep "," (q.map print) ++ "\x7d" ∧
    print (Val.stck (stackPush (stackPush (stackPush []
      (Val.other "1")) (Val.other "2")) (Val.other "3"))) = "\x7b3,2,1\x7d" := by
  refine ⟨?_, rfl, ?_, ?_, ?_⟩
  · simp [popBranch, printListF_join]
  · simp [print, popBranch]
  · simp [print, printListF_join]
  · simp [print, printListF, stackPush]

/-- C8: the dedicated std::vector<bool> overload renders the stored
booleans as a brace-wrapped comma-separated list of T / F. -/
theorem c8_bool_vector (bs : List Bool) :
    print (Val.boolVec bs) =
      "\x7b" ++ joinSep "," (bs.map fun b => if b then "T" else "F") ++ "\x7d" := by
  simp [print, boolVecLoop_join]

/-- C9: when the log file fails to open, the DebugFileOn constructor leaves
cerr unredirected, writes the single line "Unable to open debug logging
file <name>" to the original sink, touches the file contents not at all,
and execution simply continues. -/
theorem c9_file_open_failure (filename ts : String) (s : CerrState)
    (h : s.redirected = false) :
    debugFileOnCtor false filename ts s =
      { s with origOut := s.origOut ++
          ("Unable to open debug logging file " ++ logFileName filename ts ++ "\n") } ∧
    (debugFileOnCtor false filename ts s).redirected = false ∧
    (debugFileOnCtor false filename ts s).fileOut = s.fileOut := by
  refine ⟨?_, ?_, ?_⟩ <;> simp [debugFileOnCtor, cerrWrite, h]

/-- Witness for c9_file_open_failure at a concrete state and file name. -/
theorem c9_file_open_failure_witness :
    debugFileOnCtor false "Test_Log" "20260101_120000" ⟨"", "", false⟩ =
      { origOut := "Unable to open debug logging file Test_Log_20260101_120000.log\n",
        fileOut := "", redirected := false } := by
  rw [(c9_file_open_failure "Test_Log" "20260101_120000" ⟨"", "", false⟩ rfl).1]
  rfl

/-- C10: debugMsg streams its value with plain operator<< rather than the
value formatter: booleans come out as 1 / 0 (not T / F), std::string and
char come out verbatim with no surrounding quotes — each differing from
what print would emit. -/
theorem c10_msg_plain (fn : String) (line : Int) :
    (∀ b, debugMsgOn fn line (MsgVal.mb b) =
        basename fn ++ "(" ++ toString line ++ "): " ++ (if b then "1" else "0") ++ "\n") ∧
    (∀ b, streamIns (MsgVal.mb b) ≠ print (Val.bool b)) ∧
    (∀ s, debugMsgOn fn line (MsgVal.ms s) =
        basename fn ++ "(" ++ toString line ++ "): " ++ s ++ "\n") ∧
    (∀ s, streamIns (MsgVal.ms s) ≠ print (Val.str s)) ∧
    (∀ c, debugMsgOn fn line (MsgVal.mc c) =
        basename fn ++ "(" ++ toString line ++ "): " ++ String.mk [c] ++ "\n") ∧
    (∀ c, streamIns (MsgVal.mc c) ≠ print (Val.ch c)) := by
  refine ⟨fun b => rfl, fun b => ?_, fun s => rfl, fun s => ?_, fun c => rfl, fun c => ?_⟩
  · cases b <;> simp [streamIns, print]
  · intro hEq
    have hlen := congrArg String.length hEq
    simp only [streamIns, print, String.length_append] at hlen
    rw [show ("\x22" : String).length = 1 from rfl] at hlen
    omega
  · intro hEq
    have hlen := congrArg String.length hEq
    simp only [streamIns, print, String.length_append] at hlen
    rw [show ("\x27" : String).length = 1 from rfl] at hlen
    omega

/-- C7: an iterable that is empty, or whose elements are not themselves
iterable, is rendered flat: a brace-delimited comma-separated list of the
recursively formatted elements; the empty iterable renders exactly as
"{}". -/
theorem c7_flat_list (xs : List Val)
    (h : xs = [] ∨ ∀ y ∈ xs, y.isIterable = false) :
    print (Val.iter xs) = "\x7b" ++ joinSep "," (xs.map print) ++ "\x7d" ∧
    print (Val.iter ([] : List Val)) = "\x7b\x7d" := by
  have hempty : print (Val.iter ([] : List Val)) = "\x7b\x7d" := by
    simp [print, printListF, elemsIterable]
  refine ⟨?_, hempty⟩
  rcases h with h | h
  · subst h
    simpa [joinSep] using hempty
  · cases xs with
    | nil => simpa [joinSep] using hempty
    | cons y l =>
        have hit : elemsIterable (y :: l) = false := by
          simp [elemsIterable, h y (by simp)]
        simp [print, hit, printListF_join]

/-- Witness for c7_flat_list: the flat sequence {1,2,3} of the spec. -/
theorem c7_flat_list_witness :
    (([Val.other "1", Val.other "2", Val.other "3"] : List Val) = [] ∨
      ∀ y ∈ [Val.other "1", Val.other "2", Val.other "3"], y.isIterable = false) ∧
    print (Val.iter [Val.other "1", Val.other "2", Val.other "3"]) =
      "\x7b" ++ joinSep "," ([Val.other "1", Val.other "2", Val.other "3"].map print) ++ "\x7d" :=
  ⟨Or.inr (by decide), (c7_flat_list _ (Or.inr (by decide))).1⟩

/-- C2 counterexample: for {{1,2},{3,4}} the index field is written with
std::left, so each index is left-justified and padded on the RIGHT to the
field width ("0 {1,2}"), not left-padded to the field width (" 0{1,2}") as
the claim reads. -/
theorem c2_counterexample :
    print (Val.iter [Val.iter [Val.other "1", Val.other "2"],
      Val.iter [Val.other "3", Val.other "4"]]) =
      "\n~~~~~\n0 \x7b1,2\x7d\n1 \x7b3,4\x7d\n~~~~~\n" ∧
    ("\n~~~~~\n0 \x7b1,2\x7d\n1 \x7b3,4\x7d\n~~~~~\n" : String) ≠
      "\n~~~~~\n 0\x7b1,2\x7d\n 1\x7b3,4\x7d\n~~~~~\n" := by
  constructor
  · simp [print, printListF, printBlock, elemsIterable, Val.isIterable, padField]
    rfl
  · decide

/-- C2 as amended: for a non-empty iterable of iterables, print emits the
block bounded by "~~~~~" lines, one line per element, each line holding the
zero-based index left-justified (padded on the right with spaces) in a
field of width max(0, floor(log10(count-1))) + 2 — Nat.log 10 realises the
max(0,·) clamp since Nat.log 10 0 = 0 — followed by the recursively
formatted element and a newline. -/
theorem c2_nested_block (xs : List Val) (h1 : xs ≠ [])
    (h2 : ∀ y ∈ xs, y.isIterable = true) :
    print (Val.iter xs) =
      "\n~~~~~\n" ++
      strConcat ((List.enumFrom 0 xs).map fun p =>
        padField (Nat.log 10 (xs.length - 1) + 2) (toString p.1) ++ print p.2 ++ "\n") ++
      "~~~~~\n" := by
  cases xs with
  | nil => exact absurd rfl h1
  | cons y l =>
      have hit : elemsIterable (y :: l) = true := by
        simp [elemsIterable, h2 y (by simp)]
      simp [print, hit, printBlock_lines]

/-- Witness for c2_nested_block: the spec example {{1,2},{3,4}}. -/
theorem c2_nested_block_witness :
    ([Val.iter [Val.other "1", Val.other "2"], Val.iter [Val.other "3", Val.other "4"]] ≠
      ([] : List Val)) ∧
    print (Val.iter [Val.iter [Val.other "1", Val.other "2"],
      Val.iter [Val.other "3", Val.other "4"]]) =
      "\n~~~~~\n" ++
      strConcat ((List.enumFrom 0 [Val.iter [Val.other "1", Val.other "2"],
          Val.iter [Val.other "3", Val.other "4"]]).map fun p =>
        padField (Nat.log 10 ([Val.iter [Val.other "1", Val.other "2"],
          Val.iter [Val.other "3", Val.other "4"]].length - 1) + 2)
          (toString p.1) ++ print p.2 ++ "\n") ++
      "~~~~~\n" :=
  ⟨by simp, c2_nested_block _ (by simp) (by decide)⟩

/-- C4 counterexample: square brackets are not tracked by the splitting
loop (only parens, angles and braces adjust the depth counter), so the
comma inside "a[1,2]" DOES end a name: the labels recovered from
"a[1,2],c" are "a[1" and "2]", not "a[1,2]" and "c". -/
theorem c4_counterexample :
    labels ("a[1,2],c".toList) 2 = ["a[1", "2]"] ∧
    (["a[1", "2]"] : List String) ≠ ["a[1,2]", "c"] := by
  exact ⟨rfl, by decide⟩

/-- C4 as amended: the splitting respects nested paren, angle and brace
depth (square brackets are not tracked): whenever every comma inside the
first segment sits at positive paren/angle/brace depth, the segment's net
depth is non-positive at its end, and likewise no comma of the second
segment sits at non-positive depth, the two labels recovered from
"s1,s2" are exactly s1 and s2. -/
theorem c4_depth_split (s1 s2 : List Char)
    (h1 : ∀ i, i < s1.length → List.getD s1 i ' ' = ',' → 0 < depthSum (List.take i s1))
    (h2 : depthSum s1 ≤ 0)
    (h3 : ∀ i, i < s2.length → List.getD s2 i ' ' = ',' → 0 < depthSum (List.take i s2)) :
    labels (s1 ++ ',' :: s2) 2 = [String.mk s1, String.mk s2] := by
  have key := splitIdx_append s1 (',' :: s2) 0 (fun i hi hc => by simpa using h1 i hi hc)
  have hstop : splitIdx (',' :: s2) (0 + depthSum s1) = 0 := by
    simp [splitIdx, h2]
  have e1 : splitIdx (s1 ++ ',' :: s2) 0 = s1.length := by
    rw [key, hstop, Nat.add_zero]
  have e2 : splitIdx s2 0 = s2.length :=
    splitIdx_run s2 0 (fun i hi hc => by simpa using h3 i hi hc)
  have hdrop : List.drop (s1.length + 1) (s1 ++ ',' :: s2) = s2 := by
    rw [show s1 ++ ',' :: s2 = (s1 ++ [',']) ++ s2 by simp,
      show s1.length + 1 = (s1 ++ [',']).length by simp]
    exact List.drop_left _ _
  have htake : List.take s1.length (s1 ++ ',' :: s2) = s1 := List.take_left s1 _
  simp [labels, e1, e2, htake, hdrop, List.take_length]

/-- Witness for c4_depth_split: the joined label text "foo(a,b),c" of the
spec splits into "foo(a,b)" and "c". -/
theorem c4_depth_split_witness :
    (∀ i, i < ("foo(a,b)".toList).length → List.getD ("foo(a,b)".toList) i ' ' = ',' →
        0 < depthSum (List.take i ("foo(a,b)".toList))) ∧
    depthSum ("foo(a,b)".toList) ≤ 0 ∧
    (∀ i, i < ("c".toList).length → List.getD ("c".toList) i ' ' = ',' →
        0 < depthSum (List.take i ("c".toList))) ∧
    labels (("foo(a,b)".toList) ++ ',' :: ("c".toList)) 2 =
      [String.mk ("foo(a,b)".toList), String.mk ("c".toList)] :=
  ⟨by decide, by decide, by decide,
    c4_depth_split ("foo(a,b)".toList) ("c".toList) (by decide) (by decide) (by decide)⟩

/-- C5 counterexample: the joiner written between entries is " ||" (space,
two pipes, NO trailing space) — the next name segment follows verbatim —
so for the names string "a,b" the emitted line reads "a = 1 ||b = 2", not
"a = 1 || b = 2" as the claim's " || " join requires. -/
theorem c5_counterexample :
    debugPrinterOn "t.cpp" 3 ("a,b".toList) [Val.other "1", Val.other "2"] =
      "t.cpp(3) [ a = 1 ||b = 2 ]\n" ∧
    ("t.cpp(3) [ a = 1 ||b = 2 ]\n" : String) ≠ "t.cpp(3) [ a = 1 || b = 2 ]\n" := by
  constructor
  · simp [debugPrinterOn, printer, print, basename, splitIdx, delta]
    rfl
  · decide

/-- C5 as amended: each value is emitted as <name> = <formatted value>
with the names recovered by the depth-aware split, successive entries are
joined with " ||" (space, two pipes; the conventional trailing space is
part of the next recovered name whenever the stringised argument list has
a space after the comma), and the whole output is prefixed once by
"<basename>(<line>) [ " and suffixed by " ]" plus a newline. -/
theorem c5_labeled_output (fn : String) (line : Int) (names : List Char)
    (vals : List Val) (h : vals ≠ []) :
    debugPrinterOn fn line names vals =
      basename fn ++ "(" ++ toString line ++ ") [ " ++
        joinSep " ||" (List.zipWith (fun n v => n ++ " = " ++ print v)
          (labels names vals.length) vals) ++ " ]\n" := by
  simp [debugPrinterOn, printer_join vals h names, String.append_assoc]

/-- Witness for c5_labeled_output at debugV(x, y)-style arguments. -/
theorem c5_labeled_output_witness :
    (([Val.other "5", Val.other "7"] : List Val) ≠ []) ∧
    debugPrinterOn "dir/main.cpp" 42 ("x, y".toList) [Val.other "5", Val.other "7"] =
      basename "dir/main.cpp" ++ "(" ++ toString (42 : Int) ++ ") [ " ++
        joinSep " ||" (List.zipWith (fun n v => n ++ " = " ++ print v)
          (labels ("x, y".toList) 2) [Val.other "5", Val.other "7"]) ++ " ]\n" :=
  ⟨by simp, c5_labeled_output "dir/main.cpp" 42 ("x, y".toList)
    [Val.other "5", Val.other "7"] (by simp)⟩

/-- C6 counterexample: printerArr splits names at raw commas with no depth
tracking at all, so the array-expression text "f(a,b)" is cut at its inner
comma: the emitted label is "f(a", not "f(a,b)". -/
theorem c6_counterexample :
    debugPrinterArrOn "t.cpp" 5 ("f(a,b), n".toList) [[Val.other "7"]] =
      "t.cpp(5) [ f(a = \x7b7\x7d ]\n" ∧
    ("t.cpp(5) [ f(a = \x7b7\x7d ]\n" : String) ≠ "t.cpp(5) [ f(a,b) = \x7b7\x7d ]\n" := by
  constructor
  · simp [debugPrinterArrOn, printerArr, printListF, print, basename]
    rfl
  · decide

/-- C6 as amended: the array printer shares the "<basename>(<line>) [ "
prefix and " ]" + newline suffix and the " ||" join, but its name
splitting is depth-blind: each array consumes two raw comma-separated
fields of the names string (the array expression, then the length
expression), and each array renders as a brace-delimited comma-separated
list of elements formatted by print. -/
theorem c6_array_output (fn : String) (line : Int) (names : List Char)
    (arrs : List (List Val)) (h : arrs ≠ []) :
    debugPrinterArrOn fn line names arrs =
      basename fn ++ "(" ++ toString line ++ ") [ " ++
        joinSep " ||" (List.zipWith
          (fun n a => n ++ " = \x7b" ++ joinSep "," (a.map print) ++ "\x7d")
          (arrLabels names arrs.length) arrs) ++ " ]\n" := by
  simp [debugPrinterArrOn, printerArr_join arrs h names, String.append_assoc]

/-- Witness for c6_array_output at debugArr(p, n, q, m)-style arguments. -/
theorem c6_array_output_witness :
    (([[Val.other "1", Val.other "2"], [Val.other "9"]] : List (List Val)) ≠ []) ∧
    debugPrinterArrOn "demo.cpp" 7 ("p, n, q, m".toList)
        [[Val.other "1", Val.other "2"], [Val.other "9"]] =
      basename "demo.cpp" ++ "(" ++ toString (7 : Int) ++ ") [ " ++
        joinSep " ||" (List.zipWith
          (fun n a => n ++ " = \x7b" ++ joinSep "," (a.map print) ++ "\x7d")
          (arrLabels ("p, n, q, m".toList) 2)
          [[Val.other "1", Val.other "2"], [Val.other "9"]]) ++ " ]\n" :=
  ⟨by simp, c6_array_output "demo.cpp" 7 ("p, n, q, m".toList)
    [[Val.other "1", Val.other "2"], [Val.other "9"]] (by simp)⟩
